import Mathlib

/-!
Shallow embedding of `src/nexus_multinode_runner.py`, a sequential WSL
command runner.  Pure computations of the script (line filtering, the
passwd filter expressed by the embedded awk program, input parsing and
validation loops, construction of the Windows Terminal invocation) are
translated to Lean functions.  Interaction with the operating system is
modelled by explicit oracles: the outcome of a temp-file creation and of
a process spawn is a parameter of a launch, keyboard input is a list of
input events in which an interrupt event stands for KeyboardInterrupt,
and the observable behaviour of a run is a trace of events (files
created or deleted, processes spawned, sleeps, prompts).

Python's string primitives `strip()`, `lower()`, `startswith` and
`int()` are modelled by structurally recursive functions over the
character list of a `String`, so that every definition evaluates by
kernel reduction.
-/

/-- The whitespace characters recognised by Python's `str.strip()`
(ASCII range; the uncommon non-ASCII whitespace code points are not
modelled and never occur in this development). -/
def isSpaceChar (c : Char) : Bool :=
  c == ' ' || c == '\t' || c == '\n' || c == '\r' || c == '\x0b' || c == '\x0c'

/-- Python `s.lstrip()`. -/
def pyLStrip (s : String) : String :=
  String.mk (s.data.dropWhile isSpaceChar)

/-- Python `s.strip()`: whitespace removed from both ends. -/
def pyStrip (s : String) : String :=
  String.mk (((s.data.dropWhile isSpaceChar).reverse.dropWhile isSpaceChar).reverse)

/-- Python `s.startswith('#')`: the raw first character is '#'. -/
def startsWithHash (s : String) : Bool :=
  match s.data with
  | [] => false
  | c :: _ => c == '#'

/-- ASCII lowercasing of one character, as Python `str.lower()` does on
the characters appearing here. -/
def pyLowerChar (c : Char) : Char :=
  if 'A' ≤ c ∧ c ≤ 'Z' then Char.ofNat (c.toNat + 32) else c

/-- Python `s.lower()`. -/
def pyLower (s : String) : String :=
  String.mk (s.data.map pyLowerChar)

/-- One line of keyboard input: either text returned by `input()`, or a
KeyboardInterrupt raised while the prompt is blocking. -/
inductive InputEvent where
  | text (s : String)
  | interrupt
  deriving DecidableEq, Repr

/-- Result of one of the script's prompt loops: a value was selected, or
the process exited with the given code (`sys.exit`), or the modelled
input stream ran out (the real loop would keep re-prompting forever). -/
inductive PromptResult (α : Type) where
  | selected (a : α)
  | exited (code : Nat)
  | noInput
  deriving DecidableEq, Repr

/-- Digit-string parser used by `pyInt`: all characters must be decimal
digits and there must be at least one. -/
def parseDigits (cs : List Char) : Option Nat :=
  if cs.isEmpty then none
  else if cs.all Char.isDigit then
    some (cs.foldl (fun n c => 10 * n + (c.toNat - '0'.toNat)) 0)
  else none

/-- Python `int(s)` on a text argument: surrounding whitespace is
ignored, then an optional sign followed by decimal digits; anything else
raises ValueError, modelled as `none`.  (Underscore digit separators and
non-ASCII digits, which CPython also accepts, are not modelled; no input
relevant to this development uses them.) -/
def pyInt (s : String) : Option Int :=
  match (pyStrip s).data with
  | '-' :: rest => (parseDigits rest).map (fun n => -(n : Int))
  | '+' :: rest => (parseDigits rest).map (fun n => (n : Int))
  | ds => (parseDigits ds).map (fun n => (n : Int))

/-- One row of `/etc/passwd` as seen by the awk filter: the account name
(field 1) and the numeric user id (field 3). -/
structure PasswdEntry where
  name : String
  uid : Nat
  deriving DecidableEq, Repr

/-- `get_wsl_users` (lines 59-90): the filtering it performs on the
account database is the awk program embedded in the source,
`($3 >= 1000 || $3 == 0) && $1 != "nobody" { print $1 }`, applied to
/etc/passwd rows; the surrounding Python only forwards the printed
names (stripping empty output lines, which cannot arise from nonempty
account names). -/
def get_wsl_users (entries : List PasswdEntry) : List String :=
  (entries.filter
    (fun e => decide ((1000 ≤ e.uid ∨ e.uid = 0) ∧ e.name ≠ "nobody"))).map
    PasswdEntry.name

/-- `select_distro` (lines 39-57): re-prompts until the input parses as
an integer between 1 and the list length, answers with the 1-based
selection; a KeyboardInterrupt exits with status 0. -/
def select_distro (distros : List String) : List InputEvent → PromptResult String
  | [] => PromptResult.noInput
  | InputEvent.interrupt :: _ => PromptResult.exited 0
  | InputEvent.text selection_input :: rest =>
    match pyInt selection_input with
    | none => select_distro distros rest
    | some selection =>
      if 1 ≤ selection ∧ selection ≤ (distros.length : Int) then
        PromptResult.selected (distros.getD (selection.toNat - 1) "")
      else select_distro distros rest

/-- `select_user` (lines 99-117): identical loop to `select_distro`,
over the detected user names. -/
def select_user (users : List String) : List InputEvent → PromptResult String
  | [] => PromptResult.noInput
  | InputEvent.interrupt :: _ => PromptResult.exited 0
  | InputEvent.text selection_input :: rest =>
    match pyInt selection_input with
    | none => select_user users rest
    | some selection =>
      if 1 ≤ selection ∧ selection ≤ (users.length : Int) then
        PromptResult.selected (users.getD (selection.toNat - 1) "")
      else select_user users rest

/-- `read_commands` (lines 119-124): keep each line whose stripped text
is nonempty and which does not start with the character '#' (tested by
`startswith` on the raw, unstripped line), and keep it as its stripped
text, in file order.  File lines are modelled without their trailing
newline, which `strip()` removes and which `startswith` cannot see. -/
def read_commands : List String → List String
  | [] => []
  | line :: rest =>
    if pyStrip line ≠ "" ∧ ¬ startsWithHash line then
      pyStrip line :: read_commands rest
    else read_commands rest

/-- The command-file name prompt inside `get_user_inputs` (lines
135-137): the stripped input, defaulting to "commands.txt" when blank. -/
def command_file_of (s : String) : String :=
  if pyStrip s = "" then "commands.txt" else pyStrip s

/-- The delay prompt loop inside `get_user_inputs` (lines 139-151):
blank input means 3; non-integer input re-prompts; a negative value
re-prompts; the first accepted value is answered; a KeyboardInterrupt
exits with status 0. -/
def get_delay : List InputEvent → PromptResult Int
  | [] => PromptResult.noInput
  | InputEvent.interrupt :: _ => PromptResult.exited 0
  | InputEvent.text input :: rest =>
    let delay_input := pyStrip input
    match (if delay_input = "" then some (3 : Int) else pyInt delay_input) with
    | none => get_delay rest
    | some delay =>
      if delay < 0 then get_delay rest else PromptResult.selected delay

/-- Outcome of the `tempfile.NamedTemporaryFile` call of a launch:
either the created file's Windows path, or the exception message. -/
inductive TempFileOutcome where
  | ok (path : String)
  | error (msg : String)
  deriving DecidableEq, Repr

/-- Outcome of the `subprocess.Popen` call of a launch: success,
FileNotFoundError (the `wt` executable is missing), or any other
exception. -/
inductive SpawnOutcome where
  | ok
  | fileNotFound
  | otherError (msg : String)
  deriving DecidableEq, Repr

/-- The OS-dependent outcome of one launch attempt. -/
structure LaunchEnv where
  tempFile : TempFileOutcome
  spawn : SpawnOutcome
  deriving DecidableEq, Repr

/-- A launch attempt fails when the temp file cannot be created or the
spawn raises. -/
def launchFails (env : LaunchEnv) : Bool :=
  match env.tempFile with
  | TempFileOutcome.error _ => true
  | TempFileOutcome.ok _ =>
    match env.spawn with
    | SpawnOutcome.ok => false
    | SpawnOutcome.fileNotFound => true
    | SpawnOutcome.otherError _ => true

/-- Observable events of a run. -/
inductive Event where
  | tempFileCreated (path : String)
  | tempFileDeleted (path : String)
  | spawned (cmd : List String)
  | slept (seconds : Int)
  | promptedContinue
  deriving DecidableEq, Repr

/-- Helper for `to_wsl_path`: `replace(':', '', 1)`, removal of the
first colon only. -/
def removeFirstColon : List Char → List Char
  | [] => []
  | c :: cs => if c == ':' then cs else c :: removeFirstColon cs

/-- Windows-to-WSL path translation (lines 186-187): backslashes become
slashes, the first colon is dropped, and the result is prefixed with
"/mnt/" plus the lowercased drive letter.  (The real code would raise on
an empty path; temp-file paths are never empty.) -/
def to_wsl_path (temp_script_path : String) : String :=
  let slashed := temp_script_path.data.map (fun c => if c == '\\' then '/' else c)
  match removeFirstColon slashed with
  | [] => "/mnt/"
  | c :: cs => "/mnt/" ++ String.mk (pyLowerChar c :: cs)

/-- The Windows Terminal invocation built by `execute_command_in_tab`
(lines 191-207): base command, window arguments chosen by `is_first`
(new window `-w -1` for the first launch, existing window `-w 0`
otherwise), then the WSL part running the script through `bash -i` as
the selected user. -/
def wt_cmd_list (distro wsl_username wsl_script_path : String) (is_first : Bool) :
    List String :=
  let wt_cmd_base := ["wt"]
  let wt_cmd_args := if is_first then ["-w", "-1", "nt"] else ["-w", "0", "nt"]
  let wsl_cmd := ["wsl", "-d", distro, "-u", wsl_username, "bash", "-i", wsl_script_path]
  wt_cmd_base ++ wt_cmd_args ++ wsl_cmd

/-- `execute_command_in_tab` (lines 153-236): create the temp script
(on failure return False with nothing done); build the `wt` invocation;
spawn it detached.  On spawn success return True leaving the script file
in place; on FileNotFoundError return False without deleting the file;
on any other exception delete the file and return False.  Every failure
is turned into the returned Bool, never an exception. -/
def execute_command_in_tab (env : LaunchEnv) (distro wsl_username _command : String)
    (is_first : Bool) : Bool × List Event :=
  match env.tempFile with
  | TempFileOutcome.error _ => (false, [])
  | TempFileOutcome.ok temp_script_path =>
    let wsl_script_path := to_wsl_path temp_script_path
    let wt_cmd := wt_cmd_list distro wsl_username wsl_script_path is_first
    match env.spawn with
    | SpawnOutcome.ok =>
      (true, [Event.tempFileCreated temp_script_path, Event.spawned wt_cmd])
    | SpawnOutcome.fileNotFound =>
      (false, [Event.tempFileCreated temp_script_path])
    | SpawnOutcome.otherError _ =>
      (false, [Event.tempFileCreated temp_script_path,
               Event.tempFileDeleted temp_script_path])

/-- The command loop of `main` (lines 281-296).  `i` is the 1-based
index of the current command, `total` the length of the whole command
list, `envs j` the OS outcome of the launch of command `j`, and
`responses j` the operator's answer to the continue prompt after a
failed launch of command `j`.  Returns the event trace together with a
flag that is true when a KeyboardInterrupt at the continue prompt
aborted the loop (it propagates to the top-level handler). -/
def run_loop (distro wsl_username : String) (delay : Int)
    (envs : Nat → LaunchEnv) (responses : Nat → InputEvent) (total : Nat) :
    List String → Nat → List Event × Bool
  | [], _ => ([], false)
  | command :: rest, i =>
    let r := execute_command_in_tab (envs i) distro wsl_username command (i == 1)
    if r.1 then
      if i < total then
        let t := run_loop distro wsl_username delay envs responses total rest (i + 1)
        (r.2 ++ Event.slept delay :: t.1, t.2)
      else
        let t := run_loop distro wsl_username delay envs responses total rest (i + 1)
        (r.2 ++ t.1, t.2)
    else
      match responses i with
      | InputEvent.interrupt => (r.2 ++ [Event.promptedContinue], true)
      | InputEvent.text response =>
        if pyLower (pyStrip response) = "y" then
          let t := run_loop distro wsl_username delay envs responses total rest (i + 1)
          (r.2 ++ Event.promptedContinue :: t.1, t.2)
        else
          (r.2 ++ [Event.promptedContinue], false)

/-- All the external inputs of one invocation of the script: the
discovered distributions, the passwd rows of the chosen distribution,
the keyboard input at each prompt, the content of the command file, and
the OS outcome of each launch. -/
structure World where
  distros : List String
  distroInputs : List InputEvent
  passwd : List PasswdEntry
  userInputs : List InputEvent
  fileInput : InputEvent
  delayInputs : List InputEvent
  fileLines : List String
  launchEnvs : Nat → LaunchEnv
  contInputs : Nat → InputEvent

/-- `main` together with the `__main__` guard (lines 238-309), assuming
distribution discovery itself succeeded and the command file exists
(their fatal-error exits are outside every claim's scope): empty
distribution, user or command lists exit 1; each setup prompt may exit 0
on interrupt (caught locally or by the top-level KeyboardInterrupt
handler); otherwise a fixed 3-second sleep precedes the command loop,
and the process ends with status 0 (also when the loop was interrupted,
via the top-level handler).  The result is the exit code (`none` when a
prompt loop consumed all modelled input) and the event trace. -/
def main_model (w : World) : Option Nat × List Event :=
  if w.distros.isEmpty then (some 1, [])
  else
    match select_distro w.distros w.distroInputs with
    | PromptResult.exited c => (some c, [])
    | PromptResult.noInput => (none, [])
    | PromptResult.selected selected_distro =>
      let users := get_wsl_users w.passwd
      if users.isEmpty then (some 1, [])
      else
        match select_user users w.userInputs with
        | PromptResult.exited c => (some c, [])
        | PromptResult.noInput => (none, [])
        | PromptResult.selected wsl_username =>
          match w.fileInput with
          | InputEvent.interrupt => (some 0, [])
          | InputEvent.text _file_raw =>
            match get_delay w.delayInputs with
            | PromptResult.exited c => (some c, [])
            | PromptResult.noInput => (none, [])
            | PromptResult.selected delay =>
              let commands := read_commands w.fileLines
              if commands.isEmpty then (some 1, [])
              else
                let t := run_loop selected_distro wsl_username delay
                  w.launchEnvs w.contInputs commands.length commands 1
                (some 0, Event.slept 3 :: t.1)

/-- The sleep events of a trace. -/
def sleepEvents (t : List Event) : List Event :=
  t.filter (fun e => match e with | Event.slept _ => true | _ => false)

/-- The spawned invocations of a trace, in order. -/
def spawnRequests (t : List Event) : List (List String) :=
  t.filterMap (fun e => match e with | Event.spawned cmd => some cmd | _ => none)

/-- The command-list filter as the specification describes it: a line is
a comment when its first non-space character is '#', even behind leading
whitespace.  Used only to compare the description with `read_commands`. -/
def read_commands_specDescribed (lines : List String) : List String :=
  (lines.filter
    (fun l => decide (pyStrip l ≠ "" ∧ ¬ startsWithHash (pyLStrip l)))).map pyStrip

/-! ## Helper lemmas -/

theorem execute_fails_iff (env : LaunchEnv) (d u c : String) (first : Bool) :
    (execute_command_in_tab env d u c first).1 = false ↔ launchFails env = true := by
  obtain ⟨t, s⟩ := env
  cases t <;> cases s <;> simp [execute_command_in_tab, launchFails]

theorem launch_ok_form (env : LaunchEnv) (h : launchFails env = false) :
    ∃ p, env = ⟨TempFileOutcome.ok p, SpawnOutcome.ok⟩ := by
  obtain ⟨t, s⟩ := env
  cases t <;> cases s <;> simp_all [launchFails]

theorem execute_ok_events (p d u c : String) (f : Bool) :
    execute_command_in_tab ⟨TempFileOutcome.ok p, SpawnOutcome.ok⟩ d u c f
      = (true, [Event.tempFileCreated p,
                Event.spawned (wt_cmd_list d u (to_wsl_path p) f)]) := rfl

theorem sleepEvents_append (a b : List Event) :
    sleepEvents (a ++ b) = sleepEvents a ++ sleepEvents b := by
  simp [sleepEvents]

theorem sleepEvents_execute (env : LaunchEnv) (d u c : String) (f : Bool) :
    sleepEvents (execute_command_in_tab env d u c f).2 = [] := by
  obtain ⟨t, s⟩ := env
  cases t <;> cases s <;> simp [execute_command_in_tab, sleepEvents]

theorem spawnRequests_append (a b : List Event) :
    spawnRequests (a ++ b) = spawnRequests a ++ spawnRequests b := by
  simp [spawnRequests]

/-! ## Claims -/

/-- Claim C1, counterexample: the code tests `startswith('#')` on the raw
line, so a line whose '#' sits behind leading whitespace is NOT excluded,
contradicting the claimed "first non-space character" rule (rendered by
`read_commands_specDescribed`). -/
theorem C1_counterexample :
    read_commands ["echo hi", "  # hidden", "ls -la"]
        = ["echo hi", "# hidden", "ls -la"]
      ∧ read_commands_specDescribed ["echo hi", "  # hidden", "ls -la"]
        = ["echo hi", "ls -la"]
      ∧ read_commands ["echo hi", "  # hidden", "ls -la"]
        ≠ read_commands_specDescribed ["echo hi", "  # hidden", "ls -la"] := by
  refine ⟨by decide, by decide, by decide⟩

/-- Claim C1, amended: the loaded command list consists exactly of the
file's lines that are non-empty after trimming and whose first character
(on the raw line, before any whitespace is removed) is not '#', each
kept as its trimmed text, in file order; a comment line indented by
whitespace is therefore kept.  Includes the spec's scenario. -/
theorem C1_read_commands :
    (∀ lines : List String,
        read_commands lines
          = (lines.filter
              (fun l => decide (pyStrip l ≠ "" ∧ ¬ startsWithHash l))).map pyStrip)
      ∧ read_commands ["echo hi", "# comment", "", "ls -la"] = ["echo hi", "ls -la"]
      ∧ read_commands ["  # indented comment"] = ["# indented comment"] := by
  refine ⟨?_, by decide, by decide⟩
  intro lines
  induction lines with
  | nil => rfl
  | cons l rest ih =>
    by_cases h : pyStrip l ≠ "" ∧ ¬ startsWithHash l
    · have hd := decide_eq_true h
      simp only [read_commands]
      rw [if_pos h, ih, List.filter_cons, hd]
      simp
    · have hd := decide_eq_false h
      simp only [read_commands]
      rw [if_neg h, ih, List.filter_cons, hd]
      simp

/-- Claim C2: the identity filter answers exactly the names of accounts
whose uid is 0 or at least 1000 and whose name is not "nobody",
regardless of where the entry sits in the list; and the spec's scenario
list filters to root and alice. -/
theorem C2_identity_filter :
    (∀ (entries : List PasswdEntry) (u : String),
        u ∈ get_wsl_users entries
          ↔ ∃ e, e ∈ entries ∧ e.name = u ∧ (e.uid = 0 ∨ 1000 ≤ e.uid)
              ∧ e.name ≠ "nobody")
      ∧ get_wsl_users [⟨"root", 0⟩, ⟨"nobody", 65534⟩, ⟨"daemon", 1⟩, ⟨"alice", 1000⟩]
          = ["root", "alice"] := by
  constructor
  · intro entries u
    simp only [get_wsl_users, List.mem_map, List.mem_filter, decide_eq_true_eq]
    constructor
    · rintro ⟨e, ⟨he, hid, hn⟩, hname⟩
      exact ⟨e, he, hname, hid.symm, hn⟩
    · rintro ⟨e, he, hname, hid, hn⟩
      exact ⟨e, ⟨he, hid.symm, hn⟩, hname⟩
  · decide

/-- Claim C4, counterexample: when the spawn fails because the terminal
multiplexer is missing (FileNotFoundError), the launch fails but the
temporary script file is NOT deleted — the claimed "deleted for any
spawn failure, including the missing-multiplexer case" is false. -/
theorem C4_counterexample :
    (execute_command_in_tab ⟨TempFileOutcome.ok "C:\\Temp\\t.sh", SpawnOutcome.fileNotFound⟩
        "Ubuntu" "alice" "echo hi" true).1 = false
      ∧ Event.tempFileDeleted "C:\\Temp\\t.sh"
          ∉ (execute_command_in_tab ⟨TempFileOutcome.ok "C:\\Temp\\t.sh", SpawnOutcome.fileNotFound⟩
              "Ubuntu" "alice" "echo hi" true).2 := by
  refine ⟨by decide, by decide⟩

/-- Claim C4, amended: the temporary script file is deleted exactly when
the spawn request fails with an error other than the missing-multiplexer
FileNotFoundError; on a missing-multiplexer failure the launch fails but
the file is left behind, and on success the file is also left behind. -/
theorem C4_temp_file_cleanup :
    ∀ (d u c p m : String) (first : Bool),
      Event.tempFileDeleted p
          ∉ (execute_command_in_tab ⟨TempFileOutcome.ok p, SpawnOutcome.ok⟩ d u c first).2
        ∧ (execute_command_in_tab ⟨TempFileOutcome.ok p, SpawnOutcome.ok⟩ d u c first).1
            = true
        ∧ Event.tempFileDeleted p
            ∉ (execute_command_in_tab ⟨TempFileOutcome.ok p, SpawnOutcome.fileNotFound⟩
                d u c first).2
        ∧ (execute_command_in_tab ⟨TempFileOutcome.ok p, SpawnOutcome.fileNotFound⟩
            d u c first).1 = false
        ∧ Event.tempFileDeleted p
            ∈ (execute_command_in_tab ⟨TempFileOutcome.ok p, SpawnOutcome.otherError m⟩
                d u c first).2
        ∧ (execute_command_in_tab ⟨TempFileOutcome.ok p, SpawnOutcome.otherError m⟩
            d u c first).1 = false := by
  intro d u c p m first
  refine ⟨?_, rfl, ?_, rfl, ?_, rfl⟩
  · simp [execute_command_in_tab]
  · simp [execute_command_in_tab]
  · simp [execute_command_in_tab]

/-- Claim C7: the delay prompt only ever answers a non-negative integer;
blank input resolves to the default 3; the input "-1" is rejected and
the prompt repeats; non-integer input is rejected and the prompt
repeats; the first accepted value is answered unchanged. -/
theorem C7_delay_prompt :
    (∀ (inputs : List InputEvent) (d : Int),
        get_delay inputs = PromptResult.selected d → 0 ≤ d)
      ∧ (∀ rest, get_delay (InputEvent.text "" :: rest) = PromptResult.selected 3)
      ∧ (∀ rest, get_delay (InputEvent.text "-1" :: rest) = get_delay rest)
      ∧ (∀ rest, get_delay (InputEvent.text "abc" :: rest) = get_delay rest)
      ∧ (∀ (s : String) (d : Int) (rest : List InputEvent),
          pyStrip s ≠ "" → pyInt (pyStrip s) = some d → 0 ≤ d →
          get_delay (InputEvent.text s :: rest) = PromptResult.selected d) := by
  refine ⟨?_, fun rest => rfl, fun rest => rfl, fun rest => rfl, ?_⟩
  · intro inputs
    induction inputs with
    | nil => intro d h; simp [get_delay] at h
    | cons e rest ih =>
      intro d h
      cases e with
      | interrupt => simp [get_delay] at h
      | text s =>
        simp only [get_delay] at h
        split at h
        · exact ih d h
        · split at h
          · exact ih d h
          · cases h
            omega
  · intro s d rest h1 h2 h3
    simp only [get_delay]
    rw [if_neg h1, h2]
    simp only []
    rw [if_neg (by omega)]

/-- Claim C7 witness: concrete runs of the delay prompt exercising each
clause of `C7_delay_prompt`. -/
theorem C7_witness :
    (0 : Int) ≤ 7
      ∧ get_delay [InputEvent.text ""] = PromptResult.selected 3
      ∧ get_delay [InputEvent.text "-1", InputEvent.text "5"]
          = get_delay [InputEvent.text "5"]
      ∧ get_delay [InputEvent.text "abc", InputEvent.text "5"]
          = get_delay [InputEvent.text "5"]
      ∧ get_delay [InputEvent.text " 7 "] = PromptResult.selected 7 :=
  ⟨C7_delay_prompt.1 [InputEvent.text "7"] 7 (by decide),
   C7_delay_prompt.2.1 [],
   C7_delay_prompt.2.2.1 [InputEvent.text "5"],
   C7_delay_prompt.2.2.2.1 [InputEvent.text "5"],
   C7_delay_prompt.2.2.2.2 " 7 " 7 [] (by decide) (by decide) (by decide)⟩

theorem execute_ok_of_not_fails (env : LaunchEnv) (d u c : String) (f : Bool)
    (h : launchFails env = false) :
    (execute_command_in_tab env d u c f).1 = true := by
  obtain ⟨t, s⟩ := env
  cases t <;> cases s <;> simp_all [launchFails, execute_command_in_tab]

theorem run_loop_cons_ok (d u : String) (delay : Int) (envs : Nat → LaunchEnv)
    (resp : Nat → InputEvent) (total : Nat) (c : String) (rest : List String) (i : Nat)
    (h : (execute_command_in_tab (envs i) d u c (i == 1)).1 = true) :
    run_loop d u delay envs resp total (c :: rest) i
      = if i < total then
          ((execute_command_in_tab (envs i) d u c (i == 1)).2
              ++ Event.slept delay :: (run_loop d u delay envs resp total rest (i + 1)).1,
            (run_loop d u delay envs resp total rest (i + 1)).2)
        else
          ((execute_command_in_tab (envs i) d u c (i == 1)).2
              ++ (run_loop d u delay envs resp total rest (i + 1)).1,
            (run_loop d u delay envs resp total rest (i + 1)).2) := by
  simp only [run_loop, h, if_true]

theorem run_loop_cons_ok_fst (d u : String) (delay : Int) (envs : Nat → LaunchEnv)
    (resp : Nat → InputEvent) (total : Nat) (c : String) (rest : List String) (i : Nat)
    (h : (execute_command_in_tab (envs i) d u c (i == 1)).1 = true) (hlt : i < total) :
    (run_loop d u delay envs resp total (c :: rest) i).1
      = (execute_command_in_tab (envs i) d u c (i == 1)).2
          ++ Event.slept delay :: (run_loop d u delay envs resp total rest (i + 1)).1 := by
  rw [run_loop_cons_ok d u delay envs resp total c rest i h, if_pos hlt]

theorem run_loop_cons_ok_fst_last (d u : String) (delay : Int) (envs : Nat → LaunchEnv)
    (resp : Nat → InputEvent) (total : Nat) (c : String) (rest : List String) (i : Nat)
    (h : (execute_command_in_tab (envs i) d u c (i == 1)).1 = true) (hlt : ¬ i < total) :
    (run_loop d u delay envs resp total (c :: rest) i).1
      = (execute_command_in_tab (envs i) d u c (i == 1)).2
          ++ (run_loop d u delay envs resp total rest (i + 1)).1 := by
  rw [run_loop_cons_ok d u delay envs resp total c rest i h, if_neg hlt]

theorem run_loop_cons_fail (d u : String) (delay : Int) (envs : Nat → LaunchEnv)
    (resp : Nat → InputEvent) (total : Nat) (c : String) (rest : List String) (i : Nat)
    (h : (execute_command_in_tab (envs i) d u c (i == 1)).1 = false) :
    run_loop d u delay envs resp total (c :: rest) i
      = match resp i with
        | InputEvent.interrupt =>
          ((execute_command_in_tab (envs i) d u c (i == 1)).2
            ++ [Event.promptedContinue], true)
        | InputEvent.text response =>
          if pyLower (pyStrip response) = "y" then
            ((execute_command_in_tab (envs i) d u c (i == 1)).2
                ++ Event.promptedContinue
                  :: (run_loop d u delay envs resp total rest (i + 1)).1,
              (run_loop d u delay envs resp total rest (i + 1)).2)
          else
            ((execute_command_in_tab (envs i) d u c (i == 1)).2
              ++ [Event.promptedContinue], false) := by
  simp only [run_loop, h, Bool.false_eq_true, if_false]

theorem sleepEvents_cons_slept (x : Int) (t : List Event) :
    sleepEvents (Event.slept x :: t) = Event.slept x :: sleepEvents t := rfl

theorem spawnRequests_cons_slept (x : Int) (t : List Event) :
    spawnRequests (Event.slept x :: t) = spawnRequests t := rfl

theorem spawnRequests_execute_ok (p d u c : String) (f : Bool) :
    spawnRequests
        (execute_command_in_tab ⟨TempFileOutcome.ok p, SpawnOutcome.ok⟩ d u c f).2
      = [wt_cmd_list d u (to_wsl_path p) f] := rfl

theorem wt_cmd_take4_true (d u sp : String) :
    (wt_cmd_list d u sp true).take 4 = ["wt", "-w", "-1", "nt"] := rfl

theorem wt_cmd_take4_false (d u sp : String) :
    (wt_cmd_list d u sp false).take 4 = ["wt", "-w", "0", "nt"] := rfl

theorem run_loop_sleeps_all_ok (d u : String) (delay : Int) (envs : Nat → LaunchEnv)
    (resp : Nat → InputEvent) (total : Nat) :
    ∀ (rest : List String) (i : Nat), 1 ≤ i → i + rest.length = total + 1 →
      (∀ j, i ≤ j → j ≤ total → launchFails (envs j) = false) →
      sleepEvents (run_loop d u delay envs resp total rest i).1
        = List.replicate (rest.length - 1) (Event.slept delay) := by
  intro rest
  induction rest with
  | nil =>
    intro i _ _ _
    simp [run_loop, sleepEvents]
  | cons c rest ih =>
    intro i h1 h2 h3
    have hit : i ≤ total := by
      simp only [List.length_cons] at h2
      omega
    have hexec := execute_ok_of_not_fails (envs i) d u c (i == 1) (h3 i le_rfl hit)
    by_cases hlt : i < total
    · rw [run_loop_cons_ok_fst d u delay envs resp total c rest i hexec hlt,
        sleepEvents_append, sleepEvents_execute, sleepEvents_cons_slept]
      have hrec := ih (i + 1) (by omega)
        (by simp only [List.length_cons] at h2 ⊢; omega)
        (fun j hj1 hj2 => h3 j (by omega) hj2)
      rw [hrec]
      have hlen1 : rest.length = (rest.length - 1) + 1 := by
        simp only [List.length_cons] at h2
        omega
      simp only [List.nil_append, List.length_cons, Nat.add_sub_cancel]
      conv_rhs => rw [hlen1]
      rw [List.replicate_succ]
    · rw [run_loop_cons_ok_fst_last d u delay envs resp total c rest i hexec hlt,
        sleepEvents_append, sleepEvents_execute]
      have hrest : rest = [] := by
        cases rest with
        | nil => rfl
        | cons a l =>
          simp only [List.length_cons] at h2
          omega
      subst hrest
      simp [run_loop, sleepEvents]

theorem run_loop_last_spawned (d u : String) (delay : Int) (envs : Nat → LaunchEnv)
    (resp : Nat → InputEvent) (total : Nat) :
    ∀ (rest : List String) (i : Nat), rest ≠ [] → i + rest.length = total + 1 →
      (∀ j, i ≤ j → j ≤ total → launchFails (envs j) = false) →
      ∃ wtc, (run_loop d u delay envs resp total rest i).1.getLast?
        = some (Event.spawned wtc) := by
  intro rest
  induction rest with
  | nil => intro i hne _ _; exact absurd rfl hne
  | cons c rest ih =>
    intro i _ h2 h3
    have hit : i ≤ total := by
      simp only [List.length_cons] at h2
      omega
    have hok := h3 i le_rfl hit
    obtain ⟨p, hp⟩ := launch_ok_form (envs i) hok
    have hexec : (execute_command_in_tab (envs i) d u c (i == 1)).1 = true := by
      rw [hp]; rfl
    by_cases hlt : i < total
    · have hne2 : rest ≠ [] := by
        intro hc
        subst hc
        simp only [List.length_cons, List.length_nil] at h2
        omega
      obtain ⟨wtc, hw⟩ := ih (i + 1) hne2
        (by simp only [List.length_cons] at h2 ⊢; omega)
        (fun j hj1 hj2 => h3 j (by omega) hj2)
      refine ⟨wtc, ?_⟩
      rw [run_loop_cons_ok_fst d u delay envs resp total c rest i hexec hlt,
        List.getLast?_append_cons]
      obtain ⟨a, l, ht⟩ := List.exists_cons_of_ne_nil
        (show (run_loop d u delay envs resp total rest (i + 1)).1 ≠ [] by
          intro hc; rw [hc] at hw; simp at hw)
      rw [ht, List.getLast?_cons_cons, ← ht, hw]
    · have hrest : rest = [] := by
        cases rest with
        | nil => rfl
        | cons a l =>
          simp only [List.length_cons] at h2
          omega
      subst hrest
      refine ⟨wt_cmd_list d u (to_wsl_path p) (i == 1), ?_⟩
      rw [run_loop_cons_ok_fst_last d u delay envs resp total c [] i hexec hlt, hp]
      rfl

/-- Claim C3: a failed launch (temp-file creation error, missing
terminal multiplexer, or any other spawn error) never escapes as an
exception — `execute_command_in_tab` is a total function whose result on
every modelled failure is the value `false`; and the run loop, on
receiving `false`, immediately emits the continue prompt (it neither
ends the trace there silently with remaining work unprompted, nor moves
on to the next command without asking). -/
theorem C3_launch_failure_handling :
    (∀ (env : LaunchEnv) (d u c : String) (first : Bool),
        launchFails env = true → (execute_command_in_tab env d u c first).1 = false)
      ∧ (∀ (d u : String) (delay : Int) (envs : Nat → LaunchEnv)
          (resp : Nat → InputEvent) (total : Nat) (c : String) (rest : List String)
          (i : Nat), launchFails (envs i) = true →
          ∃ t, (run_loop d u delay envs resp total (c :: rest) i).1
            = (execute_command_in_tab (envs i) d u c (i == 1)).2
                ++ Event.promptedContinue :: t) := by
  constructor
  · intro env d u c first h
    exact (execute_fails_iff env d u c first).mpr h
  · intro d u delay envs resp total c rest i h
    have hf := (execute_fails_iff (envs i) d u c (i == 1)).mpr h
    rw [run_loop_cons_fail d u delay envs resp total c rest i hf]
    cases hr : resp i with
    | interrupt => exact ⟨[], rfl⟩
    | text s =>
      by_cases hy : pyLower (pyStrip s) = "y"
      · exact ⟨(run_loop d u delay envs resp total rest (i + 1)).1,
          by simp only [if_pos hy]⟩
      · exact ⟨[], by simp only [if_neg hy]⟩

/-- Claim C3 witness: a concrete failing launch (missing multiplexer) in
a one-command run, where the trace continues with the continue prompt. -/
theorem C3_witness :
    ∃ t, (run_loop "Ubuntu" "alice" 2
        (fun _ => ⟨TempFileOutcome.ok "p", SpawnOutcome.fileNotFound⟩)
        (fun _ => InputEvent.text "n") 1 ["echo hi"] 1).1
      = (execute_command_in_tab ⟨TempFileOutcome.ok "p", SpawnOutcome.fileNotFound⟩
          "Ubuntu" "alice" "echo hi" (1 == 1)).2 ++ Event.promptedContinue :: t :=
  C3_launch_failure_handling.2 "Ubuntu" "alice" 2
    (fun _ => ⟨TempFileOutcome.ok "p", SpawnOutcome.fileNotFound⟩)
    (fun _ => InputEvent.text "n") 1 "echo hi" [] 1 (by decide)

/-- Claim C9: after a failed launch the run proceeds to the remaining
commands exactly when the operator's response, stripped and lowercased,
is the single character "y"; any other response ends the run there, with
no further events; in particular "yes" is not accepted. -/
theorem C9_continue_only_on_y :
    (∀ (d u : String) (delay : Int) (envs : Nat → LaunchEnv) (resp : Nat → InputEvent)
        (total : Nat) (c : String) (rest : List String) (i : Nat) (s : String),
        launchFails (envs i) = true → resp i = InputEvent.text s →
        (pyLower (pyStrip s) = "y" →
          (run_loop d u delay envs resp total (c :: rest) i).1
            = (execute_command_in_tab (envs i) d u c (i == 1)).2
                ++ Event.promptedContinue
                  :: (run_loop d u delay envs resp total rest (i + 1)).1)
        ∧ (pyLower (pyStrip s) ≠ "y" →
          run_loop d u delay envs resp total (c :: rest) i
            = ((execute_command_in_tab (envs i) d u c (i == 1)).2
                ++ [Event.promptedContinue], false)))
      ∧ pyLower (pyStrip "yes") ≠ "y"
      ∧ pyLower (pyStrip "Y") = "y"
      ∧ pyLower (pyStrip " y ") = "y" := by
  refine ⟨?_, by decide, by decide, by decide⟩
  intro d u delay envs resp total c rest i s hfail hresp
  have hf := (execute_fails_iff (envs i) d u c (i == 1)).mpr hfail
  rw [run_loop_cons_fail d u delay envs resp total c rest i hf]
  simp only [hresp]
  constructor
  · intro hy
    rw [if_pos hy]
  · intro hy
    rw [if_neg hy]

/-- Claim C9 witness: a failed first launch answered with "yes" halts
the two-command run immediately — no events of the second command. -/
theorem C9_witness :
    run_loop "U" "a" 0
        (fun _ => ⟨TempFileOutcome.ok "p", SpawnOutcome.fileNotFound⟩)
        (fun _ => InputEvent.text "yes") 2 ["c1", "c2"] 1
      = ((execute_command_in_tab ⟨TempFileOutcome.ok "p", SpawnOutcome.fileNotFound⟩
          "U" "a" "c1" (1 == 1)).2 ++ [Event.promptedContinue], false) :=
  (C9_continue_only_on_y.1 "U" "a" 0
      (fun _ => ⟨TempFileOutcome.ok "p", SpawnOutcome.fileNotFound⟩)
      (fun _ => InputEvent.text "yes") 2 "c1" ["c2"] 1 "yes" (by decide) rfl).2
    (by decide)

/-- Claim C5, counterexample: in a run of N = 2 commands whose first
launch fails (missing multiplexer) and whose operator answers "y", no
delay pause at all occurs — not N - 1 = 1 of them — because the code
sleeps only after a successful launch.  The claim as stated
("for every run") is therefore false. -/
theorem C5_counterexample :
    sleepEvents (run_loop "Ubuntu" "alice" 5
        (fun i => if i = 1 then ⟨TempFileOutcome.ok "p1", SpawnOutcome.fileNotFound⟩
                  else ⟨TempFileOutcome.ok "p2", SpawnOutcome.ok⟩)
        (fun _ => InputEvent.text "y") 2 ["a", "b"] 1).1
      ≠ List.replicate (2 - 1) (Event.slept 5) := by
  decide

/-- Claim C5, amended: in a run over N commands in which every launch
succeeds, exactly N - 1 delay pauses occur, each of exactly the
configured duration, and none follows the final command (the trace of a
non-empty run ends with the final command's spawn, not with a sleep). -/
theorem C5_delay_pauses (d u : String) (delay : Int) (envs : Nat → LaunchEnv)
    (resp : Nat → InputEvent) (cmds : List String)
    (h : ∀ j, 1 ≤ j → j ≤ cmds.length → launchFails (envs j) = false) :
    sleepEvents (run_loop d u delay envs resp cmds.length cmds 1).1
        = List.replicate (cmds.length - 1) (Event.slept delay)
      ∧ (cmds ≠ [] →
        ∃ wtc, (run_loop d u delay envs resp cmds.length cmds 1).1.getLast?
          = some (Event.spawned wtc)) := by
  constructor
  · exact run_loop_sleeps_all_ok d u delay envs resp cmds.length cmds 1 le_rfl
      (by omega) h
  · intro hne
    exact run_loop_last_spawned d u delay envs resp cmds.length cmds 1 hne
      (by omega) h

/-- Claim C5 witness: a fully successful three-command run with delay 7
has exactly two pauses of 7 and ends with a spawn. -/
theorem C5_witness :
    sleepEvents (run_loop "Ubuntu" "alice" 7
        (fun _ => ⟨TempFileOutcome.ok "p", SpawnOutcome.ok⟩)
        (fun _ => InputEvent.text "y") 3 ["c1", "c2", "c3"] 1).1
        = List.replicate 2 (Event.slept 7)
      ∧ ∃ wtc, (run_loop "Ubuntu" "alice" 7
          (fun _ => ⟨TempFileOutcome.ok "p", SpawnOutcome.ok⟩)
          (fun _ => InputEvent.text "y") 3 ["c1", "c2", "c3"] 1).1.getLast?
          = some (Event.spawned wtc) :=
  ⟨(C5_delay_pauses "Ubuntu" "alice" 7
      (fun _ => ⟨TempFileOutcome.ok "p", SpawnOutcome.ok⟩)
      (fun _ => InputEvent.text "y") ["c1", "c2", "c3"] (fun j _ _ => rfl)).1,
   (C5_delay_pauses "Ubuntu" "alice" 7
      (fun _ => ⟨TempFileOutcome.ok "p", SpawnOutcome.ok⟩)
      (fun _ => InputEvent.text "y") ["c1", "c2", "c3"] (fun j _ _ => rfl)).2
     (by decide)⟩

theorem run_loop_spawns_tail (d u : String) (delay : Int) (envs : Nat → LaunchEnv)
    (resp : Nat → InputEvent) (total : Nat) :
    ∀ (rest : List String) (i : Nat), 2 ≤ i →
      (∀ j, i ≤ j → j < i + rest.length → launchFails (envs j) = false) →
      (spawnRequests (run_loop d u delay envs resp total rest i).1).map
          (fun r => r.take 4)
        = List.replicate rest.length ["wt", "-w", "0", "nt"] := by
  intro rest
  induction rest with
  | nil => intro i _ _; simp [run_loop, spawnRequests]
  | cons c rest ih =>
    intro i h2 h3
    have hok := h3 i le_rfl (by simp only [List.length_cons]; omega)
    obtain ⟨p, hp⟩ := launch_ok_form (envs i) hok
    have hfirst : (i == 1) = false := by
      have hne : i ≠ 1 := by omega
      simp [hne]
    have hexec : (execute_command_in_tab (envs i) d u c (i == 1)).1 = true := by
      rw [hp]; rfl
    have htail := ih (i + 1) (by omega)
      (fun j hj1 hj2 => h3 j (by omega) (by simp only [List.length_cons]; omega))
    by_cases hlt : i < total
    · rw [run_loop_cons_ok_fst d u delay envs resp total c rest i hexec hlt, hp,
        spawnRequests_append, spawnRequests_execute_ok, spawnRequests_cons_slept,
        hfirst]
      simp only [List.singleton_append, List.map_cons, wt_cmd_take4_false, htail,
        List.length_cons, List.replicate_succ]
    · rw [run_loop_cons_ok_fst_last d u delay envs resp total c rest i hexec hlt, hp,
        spawnRequests_append, spawnRequests_execute_ok, hfirst]
      simp only [List.singleton_append, List.map_cons, wt_cmd_take4_false, htail,
        List.length_cons, List.replicate_succ]

/-- Claim C6: the multiplexer invocation built with `is_first` true
opens a new top-level window (`wt -w -1 nt ...`) and with `is_first`
false a tab in the existing window (`wt -w 0 nt ...`); and in a run over
N commands whose launches succeed, the request spawned for command 1 is
the new-window form and the requests for commands 2..N are all the
existing-window form. -/
theorem C6_window_layout :
    (∀ d u sp : String,
        (wt_cmd_list d u sp true).take 4 = ["wt", "-w", "-1", "nt"]
          ∧ (wt_cmd_list d u sp false).take 4 = ["wt", "-w", "0", "nt"])
      ∧ (∀ (d u : String) (delay : Int) (envs : Nat → LaunchEnv)
          (resp : Nat → InputEvent) (cmds : List String),
          (∀ j, 1 ≤ j → j ≤ cmds.length → launchFails (envs j) = false) →
          (spawnRequests (run_loop d u delay envs resp cmds.length cmds 1).1).map
              (fun r => r.take 4)
            = (match cmds with
               | [] => []
               | _ :: rest => ["wt", "-w", "-1", "nt"]
                   :: List.replicate rest.length ["wt", "-w", "0", "nt"])) := by
  constructor
  · intro d u sp
    exact ⟨wt_cmd_take4_true d u sp, wt_cmd_take4_false d u sp⟩
  · intro d u delay envs resp cmds h
    cases cmds with
    | nil => simp [run_loop, spawnRequests]
    | cons c rest =>
      have hok := h 1 le_rfl (by simp only [List.length_cons]; omega)
      obtain ⟨p, hp⟩ := launch_ok_form (envs 1) hok
      have hexec : (execute_command_in_tab (envs 1) d u c (1 == 1)).1 = true := by
        rw [hp]; rfl
      have htail := run_loop_spawns_tail d u delay envs resp (c :: rest).length rest 2
        le_rfl
        (fun j hj1 hj2 => h j (by omega) (by simp only [List.length_cons] at hj2 ⊢; omega))
      by_cases hlt : 1 < (c :: rest).length
      · rw [run_loop_cons_ok_fst d u delay envs resp (c :: rest).length c rest 1
          hexec hlt, hp, spawnRequests_append, spawnRequests_execute_ok,
          spawnRequests_cons_slept]
        simp only [List.singleton_append, List.map_cons, htail]
        simp [wt_cmd_take4_true]
      · rw [run_loop_cons_ok_fst_last d u delay envs resp (c :: rest).length c rest 1
          hexec hlt, hp, spawnRequests_append, spawnRequests_execute_ok]
        have hrest : rest = [] := by
          cases rest with
          | nil => rfl
          | cons a l => simp only [List.length_cons] at hlt; omega
        subst hrest
        simp [run_loop, spawnRequests, wt_cmd_take4_true]

/-- Claim C6 witness: a fully successful three-command run spawns one
new-window request followed by two existing-window requests. -/
theorem C6_witness :
    (spawnRequests (run_loop "Ubuntu" "alice" 7
        (fun _ => ⟨TempFileOutcome.ok "p", SpawnOutcome.ok⟩)
        (fun _ => InputEvent.text "y") 3 ["c1", "c2", "c3"] 1).1).map
        (fun r => r.take 4)
      = [["wt", "-w", "-1", "nt"], ["wt", "-w", "0", "nt"], ["wt", "-w", "0", "nt"]] :=
  C6_window_layout.2 "Ubuntu" "alice" 7
    (fun _ => ⟨TempFileOutcome.ok "p", SpawnOutcome.ok⟩)
    (fun _ => InputEvent.text "y") ["c1", "c2", "c3"] (fun j _ _ => rfl)

/-- Claim C8: a KeyboardInterrupt at any of the blocking prompts ends
the whole run with exit status 0 — at the distribution prompt, the
identity prompt, the command-file prompt and the delay prompt the run
exits 0 with an empty trace (in particular, an interrupt at the
identity-selection prompt exits 0 before any command has been
launched), and at the continue prompt the loop stops immediately with
the interrupt flag set (the top-level handler then exits 0). -/
theorem C8_interrupt_exit_zero :
    ∀ w : World,
      (w.distroInputs.head? = some InputEvent.interrupt →
        w.distros.isEmpty = false → main_model w = (some 0, []))
      ∧ (∀ sd, w.userInputs.head? = some InputEvent.interrupt →
          w.distros.isEmpty = false →
          select_distro w.distros w.distroInputs = PromptResult.selected sd →
          (get_wsl_users w.passwd).isEmpty = false →
          main_model w = (some 0, []))
      ∧ (∀ sd su, w.fileInput = InputEvent.interrupt →
          w.distros.isEmpty = false →
          select_distro w.distros w.distroInputs = PromptResult.selected sd →
          (get_wsl_users w.passwd).isEmpty = false →
          select_user (get_wsl_users w.passwd) w.userInputs
            = PromptResult.selected su →
          main_model w = (some 0, []))
      ∧ (∀ sd su f, w.delayInputs.head? = some InputEvent.interrupt →
          w.distros.isEmpty = false →
          select_distro w.distros w.distroInputs = PromptResult.selected sd →
          (get_wsl_users w.passwd).isEmpty = false →
          select_user (get_wsl_users w.passwd) w.userInputs
            = PromptResult.selected su →
          w.fileInput = InputEvent.text f →
          main_model w = (some 0, []))
      ∧ (∀ (d u : String) (delay : Int) (envs : Nat → LaunchEnv)
          (resp : Nat → InputEvent) (total : Nat) (c : String) (rest : List String)
          (i : Nat), launchFails (envs i) = true → resp i = InputEvent.interrupt →
          run_loop d u delay envs resp total (c :: rest) i
            = ((execute_command_in_tab (envs i) d u c (i == 1)).2
              ++ [Event.promptedContinue], true)) := by
  intro w
  refine ⟨?_, ?_, ?_, ?_, ?_⟩
  · intro hhead hne
    cases hdi : w.distroInputs with
    | nil => rw [hdi] at hhead; simp at hhead
    | cons e r =>
      rw [hdi] at hhead
      simp only [List.head?_cons, Option.some.injEq] at hhead
      subst hhead
      simp [main_model, hne, hdi, select_distro]
  · intro sd hhead hne hsel hune
    cases hui : w.userInputs with
    | nil => rw [hui] at hhead; simp at hhead
    | cons e r =>
      rw [hui] at hhead
      simp only [List.head?_cons, Option.some.injEq] at hhead
      subst hhead
      simp [main_model, hne, hsel, hune, hui, select_user]
  · intro sd su hfile hne hsel hune husel
    simp [main_model, hne, hsel, hune, husel, hfile]
  · intro sd su f hhead hne hsel hune husel hfile
    cases hdl : w.delayInputs with
    | nil => rw [hdl] at hhead; simp at hhead
    | cons e r =>
      rw [hdl] at hhead
      simp only [List.head?_cons, Option.some.injEq] at hhead
      subst hhead
      simp [main_model, hne, hsel, hune, husel, hfile, hdl, get_delay]
  · intro d u delay envs resp total c rest i hfail hresp
    have hf := (execute_fails_iff (envs i) d u c (i == 1)).mpr hfail
    rw [run_loop_cons_fail d u delay envs resp total c rest i hf]
    simp only [hresp]

/-- Claim C8 witness: an interrupt at the identity-selection prompt of a
concrete world exits 0 with an empty trace — no command launched. -/
theorem C8_witness :
    main_model ⟨["Ubuntu"], [InputEvent.text "1"], [⟨"root", 0⟩],
        [InputEvent.interrupt], InputEvent.text "", [], [],
        fun _ => ⟨TempFileOutcome.ok "p", SpawnOutcome.ok⟩,
        fun _ => InputEvent.text "y"⟩ = (some 0, []) :=
  (C8_interrupt_exit_zero ⟨["Ubuntu"], [InputEvent.text "1"], [⟨"root", 0⟩],
      [InputEvent.interrupt], InputEvent.text "", [], [],
      fun _ => ⟨TempFileOutcome.ok "p", SpawnOutcome.ok⟩,
      fun _ => InputEvent.text "y"⟩).2.1 "Ubuntu" rfl rfl (by decide) (by decide)

/-- Claim C10: once the command list is loaded, every run starts with
one unconditional fixed pause of exactly 3 seconds, before the first
launch and independent of the configured delay value (the first trace
event is the 3-second sleep for every configured delay, including 0). -/
theorem C10_fixed_startup_pause :
    ∀ (w : World) (sd su f : String) (delay : Int),
      w.distros.isEmpty = false →
      select_distro w.distros w.distroInputs = PromptResult.selected sd →
      (get_wsl_users w.passwd).isEmpty = false →
      select_user (get_wsl_users w.passwd) w.userInputs = PromptResult.selected su →
      w.fileInput = InputEvent.text f →
      get_delay w.delayInputs = PromptResult.selected delay →
      (read_commands w.fileLines).isEmpty = false →
      (main_model w).2.head? = some (Event.slept 3) := by
  intro w sd su f delay hne hsel hune husel hfile hdelay hcmds
  simp [main_model, hne, hsel, hune, husel, hfile, hdelay, hcmds]

/-- Claim C10 witness: a concrete run configured with delay 0 still
begins with the fixed 3-second sleep. -/
theorem C10_witness :
    (main_model ⟨["Ubuntu"], [InputEvent.text "1"], [⟨"root", 0⟩],
        [InputEvent.text "1"], InputEvent.text "", [InputEvent.text "0"],
        ["echo hi", "ls"],
        fun _ => ⟨TempFileOutcome.ok "p", SpawnOutcome.ok⟩,
        fun _ => InputEvent.text "y"⟩).2.head? = some (Event.slept 3) :=
  C10_fixed_startup_pause ⟨["Ubuntu"], [InputEvent.text "1"], [⟨"root", 0⟩],
      [InputEvent.text "1"], InputEvent.text "", [InputEvent.text "0"],
      ["echo hi", "ls"],
      fun _ => ⟨TempFileOutcome.ok "p", SpawnOutcome.ok⟩,
      fun _ => InputEvent.text "y"⟩
    "Ubuntu" "root" "" 0 rfl (by decide) (by decide) (by decide) rfl (by decide)
    (by decide)
